import Mathlib

/-!
Verification of the Daily Life Optimizer backend (`main.py`, `schemas.py`).

Shallow embedding conventions:
* Instants are minutes since midnight of the current date, as `Int`
  (`datetime.combine(today, time(hh, mm))` ↦ `60*hh + mm`; `timedelta`
  arithmetic is integer addition; all blocks of one response share the ISO
  date prefix, so comparing/sorting the ISO `start` strings agrees with
  comparing these minute instants).
* A stored document field is `Option`-wrapped: `none` means the key is
  absent.  A field that can also hold a stored JSON null is
  `Option (Option _)`: `some none` is a stored null.
* Python's stable `sorted` is embedded as `sortStable` (insertion sort that
  keeps the original relative order of key-equal elements).
* Python `s.lower()` is `pyLower` (ASCII case folding, which agrees with
  Python on every string compared against here).
-/

namespace DLO

/-- A document fetched from the `task` collection.  Fields the schedule code
reads: `title`, `priority`, `estimated_minutes` (nullable, since the schema
field is `Optional[int]`). -/
structure TaskDoc where
  title : Option String := none
  priority : Option Int := none
  estimated_minutes : Option (Option Int) := none
deriving DecidableEq

/-- A document fetched from the `routine` collection.  Fields the schedule
code reads: `name`, `preferred_time` (nullable `Optional[str]`). -/
structure RoutineDoc where
  name : Option String := none
  preferred_time : Option (Option String) := none
deriving DecidableEq

/-- A schedule block as produced by `generate_schedule`: task and break
blocks carry `start`/`end` instants (field `stop` here, since `end` is a
keyword); only task blocks carry a `priority`. -/
structure Block where
  title : String
  start : Int
  stop : Int
  type : String
  priority : Option Int := none
deriving DecidableEq

/-- Python `str.lower()` restricted to ASCII case folding. -/
def pyLower (s : String) : String :=
  ⟨s.data.map Char.toLower⟩

/-- `int(t.get("estimated_minutes", 30) or 30)`: absent key, stored null and
stored 0 all coalesce to 30 (0 and None are falsy in Python). -/
def effEst (e : Option (Option Int)) : Int :=
  match e with
  | some (some v) => if v = 0 then 30 else v
  | _ => 30

/-- `task_sort_key` from `main.py`:
`(t.get("priority", 3), t.get("estimated_minutes", 30) or 30)`. -/
def task_sort_key (t : TaskDoc) : Int × Int :=
  (t.priority.getD 3, effEst t.estimated_minutes)

/-- Lexicographic non-strict order on sort-key pairs, the order Python's
stable `sorted` realises on tuple keys. -/
def pairLe (a b : Int × Int) : Bool :=
  decide (a.1 < b.1) || (decide (a.1 = b.1) && decide (a.2 ≤ b.2))

/-- Comparison used to sort task documents (`sorted(tasks, key=task_sort_key)`). -/
def taskLe (a b : TaskDoc) : Bool :=
  pairLe (task_sort_key a) (task_sort_key b)

/-- Comparison used for the final block sort
(`sorted(blocks, key=lambda x: x["start"])`). -/
def blockLe (a b : Block) : Bool :=
  decide (a.start ≤ b.start)

/-- Stable insertion: `a` is placed before the first element `b` with
`le a b`, hence after every earlier element whose key does not exceed it. -/
def insertLe (le : α → α → Bool) (a : α) : List α → List α
  | [] => [a]
  | b :: l => if le a b then a :: b :: l else b :: insertLe le a l

/-- Stable sort (embedding of Python's `sorted`): later elements are
inserted into the sorted tail, never moving past a key-equal element. -/
def sortStable (le : α → α → Bool) : List α → List α
  | [] => []
  | a :: l => insertLe le a (sortStable le l)

/-- `(r.get("preferred_time") or "").lower()`. -/
def effPreferredLower (pt : Option (Option String)) : String :=
  pyLower (match pt with | some (some s) => s | _ => "")

/-- The fixed anchor for a routine reminder, in minutes since midnight:
morning → 09:00, afternoon → 13:00, evening → 18:00, anything else → 10:00. -/
def routineAnchor (p : String) : Int :=
  if p = "morning" then 540
  else if p = "afternoon" then 780
  else if p = "evening" then 1080
  else 600

/-- The single 15-minute reminder block built per routine document. -/
def routineBlock (r : RoutineDoc) : Block :=
  let rt := routineAnchor (effPreferredLower r.preferred_time)
  { title := "Routine: " ++ r.name.getD "Routine"
    start := rt
    stop := rt + 15
    type := "routine"
    priority := none }

/-- The task block emitted at `cursor` for task document `t`. -/
def mkTaskBlock (t : TaskDoc) (cursor : Int) : Block :=
  { title := t.title.getD "Task"
    start := cursor
    stop := cursor + effEst t.estimated_minutes
    type := "task"
    priority := some (t.priority.getD 3) }

/-- The break block emitted at `cursor` of length `bm` minutes. -/
def mkBreakBlock (cursor bm : Int) : Block :=
  { title := "Break"
    start := cursor
    stop := cursor + bm
    type := "break"
    priority := none }

/-- The `while cursor < end and i < len(tasks_sorted)` loop of
`generate_schedule`, producing the task/break block list.  Arguments after
the task list are the mutable loop state `cursor` and `minutes_since_break`. -/
def scheduleLoop (endT bem bm : Int) : List TaskDoc → Int → Int → List Block
  | [], _, _ => []
  | t :: rest, cursor, msb =>
    if cursor < endT then
      let est := effEst t.estimated_minutes
      if cursor + est > endT then
        []
      else
        let cursor1 := cursor + est
        let msb1 := msb + est
        if bem ≤ msb1 then
          if cursor1 + bm ≤ endT then
            mkTaskBlock t cursor :: mkBreakBlock cursor1 bm ::
              scheduleLoop endT bem bm rest (cursor1 + bm) 0
          else
            mkTaskBlock t cursor :: scheduleLoop endT bem bm rest cursor1 0
        else
          mkTaskBlock t cursor :: scheduleLoop endT bem bm rest cursor1 msb1
    else []

/-- `generate_schedule` after time parsing: `startT`/`endT` are the start and
end instants, `bem`/`bm` the break parameters, `tasks`/`routines` the fetched
documents; the result is the sorted `blocks` list of the response. -/
def generate_schedule (startT endT bem bm : Int)
    (tasks : List TaskDoc) (routines : List RoutineDoc) : List Block :=
  let tasks_sorted := sortStable taskLe tasks
  let routine_blocks := routines.map routineBlock
  let blocks := scheduleLoop endT bem bm tasks_sorted startT 0
  sortStable blockLe (blocks ++ routine_blocks)

/-- A meal suggestion (`title`, `ingredients`, `steps`, `tags` dict). -/
structure Suggestion where
  title : String
  ingredients : List String
  steps : List String
  tags : List String
deriving DecidableEq

/-- `has(items)`: `all(i in have for i in items)`. -/
def has (pantry : List String) (items : List String) : Bool :=
  items.all (fun i => decide (i ∈ pantry))

def eggToastS : Suggestion :=
  { title := "Egg toast"
    ingredients := ["eggs", "bread", "butter"]
    steps := ["Toast bread", "Scramble eggs", "Combine and season"]
    tags := ["quick", "breakfast"] }

def simplePastaS : Suggestion :=
  { title := "Simple pasta"
    ingredients := ["pasta", "tomato sauce", "olive oil"]
    steps := ["Boil pasta", "Heat sauce", "Combine"]
    tags := ["dinner", "15-min"] }

def riceBeansS : Suggestion :=
  { title := "Rice & beans bowl"
    ingredients := ["rice", "beans", "spices"]
    steps := ["Cook rice", "Warm beans", "Season and serve"]
    tags := ["budget", "vegan"] }

def quesadillaS : Suggestion :=
  { title := "Cheesy quesadilla"
    ingredients := ["tortilla", "cheese"]
    steps := ["Heat tortilla", "Melt cheese inside"]
    tags := ["snack", "kid-friendly"] }

/-- The fallback suggestion: `list(have)[:5]` over the set's iteration
order, which the embedding carries as the list `pantry`. -/
def pantryMixS (pantry : List String) : Suggestion :=
  { title := "Pantry mix bowl"
    ingredients := pantry.take 5
    steps := ["Combine ingredients you have and season to taste"]
    tags := ["creative"] }

/-- `suggest_meals` over the lower-cased pantry-name set, given as the list
`pantry` in the set's (unspecified) iteration order, without duplicates. -/
def suggest_meals (pantry : List String) : List Suggestion :=
  let s1 : List Suggestion :=
    if has pantry ["eggs", "bread"] then [eggToastS] else []
  let s2 : List Suggestion :=
    if has pantry ["pasta", "tomato sauce"] || has pantry ["pasta", "tomatoes"] then
      [simplePastaS] else []
  let s3 : List Suggestion :=
    if has pantry ["rice", "beans"] then [riceBeansS] else []
  let s4 : List Suggestion :=
    if has pantry ["tortilla", "cheese"] then [quesadillaS] else []
  let suggestions := s1 ++ s2 ++ s3 ++ s4
  if suggestions.isEmpty && !pantry.isEmpty then
    suggestions ++ [pantryMixS pantry]
  else
    suggestions

/-- The request body for the `Task` create endpoint: an outer `none` means
the key is absent; an inner `none` (for `Optional[...]` fields) is an
explicit JSON null.  `priority` has a non-Optional `int` annotation, so a
null there is a type error, not modelled; `due_date` string-to-date parsing
is abstracted (its text is carried through unvalidated). -/
structure TaskInput where
  title : Option String := none
  details : Option (Option String) := none
  priority : Option Int := none
  due_date : Option (Option String) := none
  estimated_minutes : Option (Option Int) := none
  category : Option (Option String) := none
deriving DecidableEq

/-- A validated `schemas.Task` record, defaults applied. -/
structure Task where
  title : String
  details : Option String
  priority : Int
  due_date : Option String
  estimated_minutes : Option Int
  category : Option String
deriving DecidableEq

/-- Validation of `schemas.Task`: `title` required; `priority` defaults to 3
and a provided value must satisfy `1 ≤ p ≤ 5`; `estimated_minutes` defaults
to 30, a provided null is accepted as-is (the field is `Optional[int]`, so
the 5–600 bounds apply only to provided integers). -/
def taskValidate (i : TaskInput) : Except String Task :=
  match i.title with
  | none => .error "title: field required"
  | some title =>
    let priority := i.priority.getD 3
    if priority < 1 ∨ 5 < priority then
      .error "priority: value out of range 1..5"
    else
      let est : Option Int := match i.estimated_minutes with
        | none => some 30
        | some v => v
      match est with
      | some v =>
        if v < 5 ∨ 600 < v then
          .error "estimated_minutes: value out of range 5..600"
        else
          .ok { title := title, details := i.details.join, priority := priority
                due_date := i.due_date.join, estimated_minutes := some v
                category := i.category.join }
      | none =>
        .ok { title := title, details := i.details.join, priority := priority
              due_date := i.due_date.join, estimated_minutes := none
              category := i.category.join }

/-- The request body for the `Bill` create endpoint (`amount` is a float
with no constraints; modelled as a rational). -/
structure BillInput where
  name : Option String := none
  amount : Option Rat := none
  due_day : Option Int := none
  autopay : Option Bool := none
deriving DecidableEq

/-- A validated `schemas.Bill` record. -/
structure Bill where
  name : String
  amount : Rat
  due_day : Int
  autopay : Bool
deriving DecidableEq

/-- Validation of `schemas.Bill`: `name`, `amount`, `due_day` required;
`due_day` must satisfy `1 ≤ d ≤ 28`; `autopay` defaults to `false`. -/
def billValidate (i : BillInput) : Except String Bill :=
  match i.name with
  | none => .error "name: field required"
  | some name =>
    match i.amount with
    | none => .error "amount: field required"
    | some amount =>
      match i.due_day with
      | none => .error "due_day: field required"
      | some d =>
        if d < 1 ∨ 28 < d then
          .error "due_day: value out of range 1..28"
        else
          .ok { name := name, amount := amount, due_day := d
                autopay := i.autopay.getD false }

/-- `true` iff validation succeeded. -/
def okB (e : Except String α) : Bool :=
  match e with
  | .ok _ => true
  | .error _ => false

/-- Storage round trip: a validated task is inserted as its field values and
fetched back as a document (the schema always fixes a `priority` integer,
and `estimated_minutes` comes back as the stored value or null). -/
def taskToDoc (t : Task) : TaskDoc :=
  { title := some t.title
    priority := some t.priority
    estimated_minutes := some t.estimated_minutes }

/-! ### Generic facts about the stable sort -/

theorem insertLe_perm (le : α → α → Bool) (a : α) (l : List α) :
    (insertLe le a l).Perm (a :: l) := by
  induction l with
  | nil => exact List.Perm.refl _
  | cons b l ih =>
    unfold insertLe
    split
    · exact List.Perm.refl _
    · exact (ih.cons b).trans (List.Perm.swap a b l)

theorem sortStable_perm (le : α → α → Bool) (l : List α) :
    (sortStable le l).Perm l := by
  induction l with
  | nil => exact List.Perm.refl _
  | cons a l ih => exact (insertLe_perm le a (sortStable le l)).trans (ih.cons a)

theorem insertLe_mem (le : α → α → Bool) (a x : α) (l : List α) :
    x ∈ insertLe le a l ↔ x = a ∨ x ∈ l := by
  rw [(insertLe_perm le a l).mem_iff, List.mem_cons]

theorem insertLe_pairwise (le : α → α → Bool)
    (htrans : ∀ a b c, le a b = true → le b c = true → le a c = true)
    (htot : ∀ a b, le a b = true ∨ le b a = true)
    (a : α) (l : List α) (h : l.Pairwise (fun x y => le x y = true)) :
    (insertLe le a l).Pairwise (fun x y => le x y = true) := by
  induction l with
  | nil => simp [insertLe]
  | cons b l ih =>
    rcases List.pairwise_cons.mp h with ⟨hb, hl⟩
    unfold insertLe
    split
    case isTrue hab =>
      refine List.pairwise_cons.mpr ⟨?_, h⟩
      intro x hx
      rcases List.mem_cons.mp hx with rfl | hx
      · exact hab
      · exact htrans a b x hab (hb x hx)
    case isFalse hab =>
      have hba : le b a = true := by
        rcases htot a b with h1 | h1
        · exact absurd h1 hab
        · exact h1
      refine List.pairwise_cons.mpr ⟨?_, ih hl⟩
      intro x hx
      rcases (insertLe_mem le a x l).mp hx with rfl | hx
      · exact hba
      · exact hb x hx

theorem sortStable_pairwise (le : α → α → Bool)
    (htrans : ∀ a b c, le a b = true → le b c = true → le a c = true)
    (htot : ∀ a b, le a b = true ∨ le b a = true) (l : List α) :
    (sortStable le l).Pairwise (fun x y => le x y = true) := by
  induction l with
  | nil => simp [sortStable]
  | cons a l ih => exact insertLe_pairwise le htrans htot a (sortStable le l) ih

theorem insertLe_filter (le : α → α → Bool) (k : α → β) [DecidableEq β]
    (hk : ∀ x y, k x = k y → le x y = true) (a : α) (l : List α) (v : β) :
    (insertLe le a l).filter (fun x => k x == v) =
      (a :: l).filter (fun x => k x == v) := by
  induction l with
  | nil => rfl
  | cons b l ih =>
    unfold insertLe
    split
    case isTrue hab => rfl
    case isFalse hab =>
      by_cases hkb : k b = v
      · by_cases hka : k a = v
        · exact absurd (hk a b (hka.trans hkb.symm)) (by simpa using hab)
        · simp only [List.filter_cons, hkb, hka, beq_iff_eq, if_true, if_false,
            beq_self_eq_true, decide_eq_true_eq]
          simp only [beq_iff_eq, hkb, hka, if_true, if_false] at ih ⊢
          rw [ih]
          simp [List.filter_cons, hka, hkb]
      · simp only [List.filter_cons, beq_iff_eq, hkb, if_false]
        rw [ih]
        simp [List.filter_cons, hkb]

theorem sortStable_filter (le : α → α → Bool) (k : α → β) [DecidableEq β]
    (hk : ∀ x y, k x = k y → le x y = true) (l : List α) (v : β) :
    (sortStable le l).filter (fun x => k x == v) =
      l.filter (fun x => k x == v) := by
  induction l with
  | nil => rfl
  | cons a l ih =>
    unfold sortStable
    rw [insertLe_filter le k hk a (sortStable le l) v]
    simp only [List.filter_cons]
    rw [ih]

theorem taskLe_trans : ∀ a b c : TaskDoc,
    taskLe a b = true → taskLe b c = true → taskLe a c = true := by
  intro a b c
  simp only [taskLe, pairLe, Bool.or_eq_true, Bool.and_eq_true, decide_eq_true_eq]
  omega

theorem taskLe_total : ∀ a b : TaskDoc, taskLe a b = true ∨ taskLe b a = true := by
  intro a b
  simp only [taskLe, pairLe, Bool.or_eq_true, Bool.and_eq_true, decide_eq_true_eq]
  omega

theorem blockLe_trans : ∀ a b c : Block,
    blockLe a b = true → blockLe b c = true → blockLe a c = true := by
  intro a b c
  simp only [blockLe, decide_eq_true_eq]
  omega

theorem blockLe_total : ∀ a b : Block, blockLe a b = true ∨ blockLe b a = true := by
  intro a b
  simp only [blockLe, decide_eq_true_eq]
  omega

/-! ### Claim theorems -/

/-- C1: after a task block is emitted (it fits: `cursor + est ≤ end`) and the
minutes-since-break counter has reached `break_every_minutes`, a Break block
of `break_minutes` length is appended at the cursor exactly when its end fits
within the end instant, advancing the cursor to the break's end; otherwise no
break block is emitted and the cursor is unchanged; in both cases the counter
passed to the rest of the iteration is 0. -/
theorem break_insertion_after_task (endT bem bm : Int) (t : TaskDoc)
    (rest : List TaskDoc) (cursor msb : Int)
    (hrun : cursor < endT)
    (hfit : cursor + effEst t.estimated_minutes ≤ endT)
    (hctr : bem ≤ msb + effEst t.estimated_minutes) :
    (cursor + effEst t.estimated_minutes + bm ≤ endT →
      scheduleLoop endT bem bm (t :: rest) cursor msb =
        mkTaskBlock t cursor ::
          mkBreakBlock (cursor + effEst t.estimated_minutes) bm ::
            scheduleLoop endT bem bm rest
              (cursor + effEst t.estimated_minutes + bm) 0) ∧
    (endT < cursor + effEst t.estimated_minutes + bm →
      scheduleLoop endT bem bm (t :: rest) cursor msb =
        mkTaskBlock t cursor ::
          scheduleLoop endT bem bm rest (cursor + effEst t.estimated_minutes) 0) := by
  constructor <;> intro hbr <;>
    simp only [scheduleLoop, if_pos hrun, if_neg (not_lt.mpr hfit), if_pos hctr]
  · rw [if_pos hbr]
  · rw [if_neg (not_le.mpr hbr)]

/-- C1 witness: with window end 600, `break_every_minutes` 60, `break_minutes`
10, a 60-minute task at cursor 480 triggers a fitting break at 540. -/
theorem break_insertion_after_task_witness :
    scheduleLoop 600 60 10
        [⟨some "A", some 1, some (some 60)⟩] 480 0 =
      mkTaskBlock ⟨some "A", some 1, some (some 60)⟩ 480 ::
        mkBreakBlock (480 + effEst (some (some 60))) 10 ::
          scheduleLoop 600 60 10 [] (480 + effEst (some (some 60)) + 10) 0 :=
  (break_insertion_after_task 600 60 10 ⟨some "A", some 1, some (some 60)⟩ [] 480 0
    (by decide) (by decide) (by decide)).1 (by decide)

/-- C2: when the head task's block end would exceed the end instant the loop
stops entirely, dropping every remaining task; and when the start instant is
not before the end instant, no task or break block is produced and the
response's blocks are the sorted routine reminders alone. -/
theorem schedule_stop_conditions (endT bem bm : Int) (t : TaskDoc)
    (rest : List TaskDoc) (cursor msb startT : Int)
    (tasks : List TaskDoc) (routines : List RoutineDoc) :
    (endT < cursor + effEst t.estimated_minutes →
      scheduleLoop endT bem bm (t :: rest) cursor msb = []) ∧
    (endT ≤ startT →
      scheduleLoop endT bem bm (sortStable taskLe tasks) startT 0 = [] ∧
      generate_schedule startT endT bem bm tasks routines =
        sortStable blockLe (routines.map routineBlock)) := by
  have hstop : ∀ (u : TaskDoc) (us : List TaskDoc) (c m : Int), endT ≤ c →
      scheduleLoop endT bem bm (u :: us) c m = [] := by
    intro u us c m hc
    simp only [scheduleLoop, if_neg (not_lt.mpr hc)]
  constructor
  · intro hover
    simp only [scheduleLoop]
    by_cases hrun : cursor < endT
    · rw [if_pos hrun, if_pos hover]
    · rw [if_neg hrun]
  · intro hse
    have hloop : scheduleLoop endT bem bm (sortStable taskLe tasks) startT 0 = [] := by
      cases h : sortStable taskLe tasks with
      | nil => rfl
      | cons u us => exact hstop u us startT 0 hse
    refine ⟨hloop, ?_⟩
    simp only [generate_schedule, hloop, List.nil_append]

/-- C2 witness: a 120-minute task does not fit in 540–600, so the loop drops
it and a later 30-minute task with it; and with start = end = 540 the
response is exactly the sorted routine blocks. -/
theorem schedule_stop_conditions_witness :
    (600 < 540 + effEst (some (some 120)) →
      scheduleLoop 600 90 10
        [⟨some "big", some 1, some (some 120)⟩,
         ⟨some "small", some 2, some (some 30)⟩] 540 0 = []) ∧
    ((600 : Int) ≤ 600 →
      scheduleLoop 600 90 10 (sortStable taskLe [⟨some "small", some 2, some (some 30)⟩]) 600 0 = [] ∧
      generate_schedule 600 600 90 10 [⟨some "small", some 2, some (some 30)⟩]
          [⟨some "Yoga", some (some "Evening")⟩] =
        sortStable blockLe ([⟨some "Yoga", some (some "Evening")⟩].map routineBlock)) :=
  schedule_stop_conditions 600 90 10 ⟨some "big", some 1, some (some 120)⟩
    [⟨some "small", some 2, some (some 30)⟩] 540 0 600
    [⟨some "small", some 2, some (some 30)⟩] [⟨some "Yoga", some (some "Evening")⟩]

/-- C3: the task list is sorted into an ascending permutation under the
lexicographic order on `task_sort_key`, whose components default the
priority to 3 when absent and the estimated minutes to 30 when the field is
absent, null, or 0 (falsy). -/
theorem tasks_sorted_by_priority_pair (tasks : List TaskDoc) :
    (sortStable taskLe tasks).Perm tasks ∧
    (sortStable taskLe tasks).Pairwise
      (fun a b => pairLe (task_sort_key a) (task_sort_key b) = true) ∧
    (∀ (ti : Option String) (p e : Int),
      e ≠ 0 → task_sort_key ⟨ti, some p, some (some e)⟩ = (p, e)) ∧
    (∀ (ti : Option String) (p : Int),
      task_sort_key ⟨ti, some p, some (some 0)⟩ = (p, 30)) ∧
    (∀ (ti : Option String) (p : Int),
      task_sort_key ⟨ti, some p, some none⟩ = (p, 30)) ∧
    (∀ (ti : Option String) (p : Int),
      task_sort_key ⟨ti, some p, none⟩ = (p, 30)) ∧
    (∀ (ti : Option String) (pe : Option (Option Int)),
      task_sort_key ⟨ti, none, pe⟩ = (3, effEst pe)) := by
  refine ⟨sortStable_perm taskLe tasks,
    sortStable_pairwise taskLe taskLe_trans taskLe_total tasks,
    ?_, ?_, ?_, ?_, ?_⟩
  · intro ti p e he
    simp [task_sort_key, effEst, he]
  · intro ti p; rfl
  · intro ti p; rfl
  · intro ti p; rfl
  · intro ti pe; rfl

/-- C3 witness: the defaulting equation with hypothesis `e ≠ 0`
instantiated at a nonzero estimate. -/
theorem tasks_sorted_by_priority_pair_witness :
    task_sort_key ⟨some "A", some 2, some (some 45)⟩ = (2, 45) :=
  (tasks_sorted_by_priority_pair []).2.2.1 (some "A") 2 45 (by decide)

/-- C4: every routine document yields one 15-minute reminder block named
"Routine: {name}" (name defaulting to "Routine"), tagged "routine", anchored
by the lower-cased `preferred_time` (morning → 09:00, afternoon → 13:00,
evening → 18:00, anything else — including absent or "night" — → 10:00), and
the block reaches the response blocks unclipped for every schedule window. -/
theorem routine_reminder_blocks (r : RoutineDoc) (startT endT bem bm : Int)
    (tasks : List TaskDoc) (routines : List RoutineDoc) :
    ((routineBlock r).stop = (routineBlock r).start + 15) ∧
    ((routineBlock r).title = "Routine: " ++ r.name.getD "Routine") ∧
    ((routineBlock r).type = "routine") ∧
    ((routineBlock r).start =
      if effPreferredLower r.preferred_time = "morning" then 540
      else if effPreferredLower r.preferred_time = "afternoon" then 780
      else if effPreferredLower r.preferred_time = "evening" then 1080
      else 600) ∧
    (routineBlock ⟨some "Yoga", some (some "Evening")⟩ =
      ⟨"Routine: Yoga", 1080, 1095, "routine", none⟩) ∧
    (routineBlock ⟨some "Walk", some (some "night")⟩ =
      ⟨"Routine: Walk", 600, 615, "routine", none⟩) ∧
    (routineBlock ⟨none, none⟩ =
      ⟨"Routine: Routine", 600, 615, "routine", none⟩) ∧
    (r ∈ routines →
      routineBlock r ∈ generate_schedule startT endT bem bm tasks routines) := by
  refine ⟨rfl, rfl, rfl, rfl, by decide, by decide, by decide, ?_⟩
  intro hr
  simp only [generate_schedule]
  rw [(sortStable_perm blockLe _).mem_iff]
  exact List.mem_append_right _ (List.mem_map_of_mem routineBlock hr)

/-- C4 witness: a mixed-case "Evening" routine lands at 18:00–18:15 in the
blocks of a 09:00–10:00 window. -/
theorem routine_reminder_blocks_witness :
    routineBlock ⟨some "Yoga", some (some "Evening")⟩ ∈
      generate_schedule 540 600 90 10 [] [⟨some "Yoga", some (some "Evening")⟩] :=
  (routine_reminder_blocks ⟨some "Yoga", some (some "Evening")⟩ 540 600 90 10 []
    [⟨some "Yoga", some (some "Evening")⟩]).2.2.2.2.2.2.2 (by decide)

/-- C5: the response's blocks are the task/break list with the routine
reminder blocks appended, stably sorted ascending by start instant: a
permutation of the combined list, pairwise ascending in `start`, and with
the elements of each start instant kept in their original relative order. -/
theorem blocks_sorted_stably_by_start (startT endT bem bm : Int)
    (tasks : List TaskDoc) (routines : List RoutineDoc) :
    (generate_schedule startT endT bem bm tasks routines).Perm
      (scheduleLoop endT bem bm (sortStable taskLe tasks) startT 0 ++
        routines.map routineBlock) ∧
    (generate_schedule startT endT bem bm tasks routines).Pairwise
      (fun a b => a.start ≤ b.start) ∧
    (∀ v : Int,
      (generate_schedule startT endT bem bm tasks routines).filter
          (fun b => b.start == v) =
        (scheduleLoop endT bem bm (sortStable taskLe tasks) startT 0 ++
          routines.map routineBlock).filter (fun b => b.start == v)) := by
  refine ⟨sortStable_perm blockLe _, ?_, ?_⟩
  · have h := sortStable_pairwise blockLe blockLe_trans blockLe_total
      (scheduleLoop endT bem bm (sortStable taskLe tasks) startT 0 ++
        routines.map routineBlock)
    refine List.Pairwise.imp ?_ h
    intro a b hab
    simpa [blockLe] using hab
  · intro v
    exact sortStable_filter blockLe Block.start
      (fun x y hxy => by simp [blockLe, hxy]) _ v

/-- C6: the four meal rules fire independently in order 1–4 on the
lower-cased pantry-name set; a pantry whose names are exactly
{"eggs", "bread"} (in either iteration order) yields the "Egg toast"
suggestion alone — no other rule fires and no fallback is added — while a
pantry also holding "pasta" and "tomatoes" triggers rules 1 and 2 together,
in that order. -/
theorem egg_toast_only_for_eggs_bread :
    (∀ pantry : List String, pantry.Perm ["eggs", "bread"] →
      suggest_meals pantry = [eggToastS]) ∧
    suggest_meals ["eggs", "bread", "pasta", "tomatoes"] =
      [eggToastS, simplePastaS] := by
  constructor
  · intro pantry hp
    simp [suggest_meals, has, hp.mem_iff, eggToastS]
  · decide

/-- C6 witness: the set-equality hypothesis discharged at the iteration
order ["bread", "eggs"]. -/
theorem egg_toast_only_for_eggs_bread_witness :
    suggest_meals ["bread", "eggs"] = [eggToastS] :=
  egg_toast_only_for_eggs_bread.1 ["bread", "eggs"] (by decide)

/-- C7: when no rule matches, a non-empty pantry yields exactly the
"Pantry mix bowl" suggestion, whose ingredients are the first (at most 5)
pantry names, with the single combine-and-season step and the "creative"
tag; an empty pantry yields no suggestions at all. -/
theorem pantry_fallback_suggestion (pantry : List String)
    (h1 : has pantry ["eggs", "bread"] = false)
    (h2 : (has pantry ["pasta", "tomato sauce"] ||
      has pantry ["pasta", "tomatoes"]) = false)
    (h3 : has pantry ["rice", "beans"] = false)
    (h4 : has pantry ["tortilla", "cheese"] = false) :
    (pantry ≠ [] →
      suggest_meals pantry = [pantryMixS pantry] ∧
      (pantryMixS pantry).ingredients = pantry.take 5 ∧
      (pantryMixS pantry).ingredients.length ≤ 5 ∧
      (∀ x ∈ (pantryMixS pantry).ingredients, x ∈ pantry) ∧
      (pantryMixS pantry).steps =
        ["Combine ingredients you have and season to taste"] ∧
      (pantryMixS pantry).tags = ["creative"]) ∧
    (pantry = [] → suggest_meals pantry = []) := by
  constructor
  · intro hne
    refine ⟨?_, rfl, ?_, ?_, rfl, rfl⟩
    · simp [suggest_meals, h1, h2, h3, h4, hne]
    · simp [pantryMixS, List.length_take]
    · intro x hx
      exact (List.take_sublist 5 pantry).mem hx
  · intro he
    subst he
    decide

/-- C7 witness: pantry {"milk", "butter"} matches no rule and yields exactly
the fallback bowl. -/
theorem pantry_fallback_suggestion_witness :
    suggest_meals ["milk", "butter"] = [pantryMixS ["milk", "butter"]] :=
  ((pantry_fallback_suggestion ["milk", "butter"] (by decide) (by decide)
    (by decide) (by decide)).1 (by decide)).1

/-- C8: Task validation rejects priority 0 and 6 and accepts 1 and 5; Bill
validation rejects due_day 0 and 29 and accepts 1 and 28; in general, on an
otherwise valid body, validation succeeds exactly when the declared range
(1–5 for priority, 1–28 for due_day) holds. -/
theorem validation_range_boundaries :
    okB (taskValidate { title := some "t", priority := some 0 }) = false ∧
    okB (taskValidate { title := some "t", priority := some 6 }) = false ∧
    okB (taskValidate { title := some "t", priority := some 1 }) = true ∧
    okB (taskValidate { title := some "t", priority := some 5 }) = true ∧
    okB (billValidate { name := some "b", amount := some 1, due_day := some 0 }) = false ∧
    okB (billValidate { name := some "b", amount := some 1, due_day := some 29 }) = false ∧
    okB (billValidate { name := some "b", amount := some 1, due_day := some 1 }) = true ∧
    okB (billValidate { name := some "b", amount := some 1, due_day := some 28 }) = true ∧
    (∀ p : Int, okB (taskValidate { title := some "t", priority := some p }) = true ↔
      1 ≤ p ∧ p ≤ 5) ∧
    (∀ d : Int,
      okB (billValidate { name := some "b", amount := some 1, due_day := some d }) = true ↔
      1 ≤ d ∧ d ≤ 28) := by
  refine ⟨by decide, by decide, by decide, by decide, by decide, by decide,
    by decide, by decide, ?_, ?_⟩
  · intro p
    simp only [taskValidate]
    split
    next h =>
      simp only [Option.getD_some] at h
      simp [okB]
      omega
    next h =>
      simp only [Option.getD_some, not_or] at h
      simp [okB]
      omega
  · intro d
    simp only [billValidate]
    split
    next h =>
      simp [okB]
      omega
    next h =>
      rw [not_or] at h
      simp [okB]
      omega

/-- The Task record that validating a body with title "Deep work" and an
explicit null `estimated_minutes` should produce. -/
def nullEstTask : Task :=
  { title := "Deep work", details := none, priority := 3, due_date := none
    estimated_minutes := none, category := none }

/-- C10: an explicit null for `estimated_minutes` passes Task validation
(the field is Optional, bypassing both the default 30 and the 5–600 check),
is stored as null, and the schedule loop then treats the task as 30 minutes
long through its falsy-coalescing defaulting. -/
theorem null_estimated_minutes_accepted :
    taskValidate { title := some "Deep work", estimated_minutes := some none } =
      .ok nullEstTask ∧
    okB (taskValidate { title := some "Deep work", estimated_minutes := some none }) = true ∧
    effEst (some none) = 30 ∧
    scheduleLoop 1080 90 10 [taskToDoc nullEstTask] 540 0 =
      [⟨"Deep work", 540, 570, "task", some 3⟩] := by
  refine ⟨rfl, by decide, by decide, by decide⟩

/-! ### Invariants of the schedule loop (window containment and chaining) -/

theorem task_cons_props (endT : Int) (t : TaskDoc) (cursor : Int) (L : List Block)
    (hposT : 0 < effEst t.estimated_minutes)
    (hfit : cursor + effEst t.estimated_minutes ≤ endT)
    (hLw : ∀ b ∈ L, cursor + effEst t.estimated_minutes ≤ b.start ∧
      b.start < b.stop ∧ b.stop ≤ endT)
    (hLch : List.Chain' (fun b c => c.start = b.stop) L)
    (hLhd : ∀ b, L.head? = some b → b.start = cursor + effEst t.estimated_minutes) :
    (∀ b ∈ mkTaskBlock t cursor :: L,
      cursor ≤ b.start ∧ b.start < b.stop ∧ b.stop ≤ endT) ∧
    List.Chain' (fun b c => c.start = b.stop) (mkTaskBlock t cursor :: L) ∧
    (∀ b, (mkTaskBlock t cursor :: L).head? = some b → b.start = cursor) := by
  refine ⟨?_, ?_, ?_⟩
  · intro b hb
    rcases List.mem_cons.mp hb with rfl | hb
    · refine ⟨le_refl _, ?_, ?_⟩ <;> simp [mkTaskBlock] <;> omega
    · have h := hLw b hb
      exact ⟨by omega, h.2.1, h.2.2⟩
  · refine List.chain'_cons'.mpr ⟨?_, hLch⟩
    intro y hy
    have := hLhd y (Option.mem_def.mp hy)
    simp [mkTaskBlock, this]
  · intro b hb
    have : b = mkTaskBlock t cursor := by
      simpa using hb.symm
    simp [this, mkTaskBlock]

theorem scheduleLoop_window_chain (endT bem bm : Int) (hbm : 0 < bm) :
    ∀ tasks : List TaskDoc, (∀ t ∈ tasks, 0 < effEst t.estimated_minutes) →
    ∀ cursor msb : Int,
      (∀ b ∈ scheduleLoop endT bem bm tasks cursor msb,
        cursor ≤ b.start ∧ b.start < b.stop ∧ b.stop ≤ endT) ∧
      List.Chain' (fun b c => c.start = b.stop)
        (scheduleLoop endT bem bm tasks cursor msb) ∧
      (∀ b, (scheduleLoop endT bem bm tasks cursor msb).head? = some b →
        b.start = cursor) := by
  intro tasks
  induction tasks with
  | nil =>
    intro _ cursor msb
    refine ⟨by simp [scheduleLoop], by simp [scheduleLoop], by simp [scheduleLoop]⟩
  | cons t rest ih =>
    intro hpos cursor msb
    have hposT : 0 < effEst t.estimated_minutes := hpos t (List.mem_cons_self t rest)
    have hposR : ∀ u ∈ rest, 0 < effEst u.estimated_minutes :=
      fun u hu => hpos u (List.mem_cons_of_mem t hu)
    by_cases hrun : cursor < endT
    · by_cases hover : cursor + effEst t.estimated_minutes > endT
      · simp only [scheduleLoop, if_pos hrun, if_pos hover]
        exact ⟨by simp, by simp, by simp⟩
      · have hfit : cursor + effEst t.estimated_minutes ≤ endT := not_lt.mp hover
        by_cases hctr : bem ≤ msb + effEst t.estimated_minutes
        · by_cases hbfit : cursor + effEst t.estimated_minutes + bm ≤ endT
          · -- task block followed by a fitting break block
            simp only [scheduleLoop, if_pos hrun, if_neg hover, if_pos hctr, if_pos hbfit]
            obtain ⟨ihw, ihch, ihhd⟩ :=
              ih hposR (cursor + effEst t.estimated_minutes + bm) 0
            have hmid : (∀ b ∈ mkBreakBlock (cursor + effEst t.estimated_minutes) bm ::
                scheduleLoop endT bem bm rest (cursor + effEst t.estimated_minutes + bm) 0,
                cursor + effEst t.estimated_minutes ≤ b.start ∧
                b.start < b.stop ∧ b.stop ≤ endT) ∧
                List.Chain' (fun b c => c.start = b.stop)
                  (mkBreakBlock (cursor + effEst t.estimated_minutes) bm ::
                    scheduleLoop endT bem bm rest
                      (cursor + effEst t.estimated_minutes + bm) 0) ∧
                (∀ b, (mkBreakBlock (cursor + effEst t.estimated_minutes) bm ::
                  scheduleLoop endT bem bm rest
                    (cursor + effEst t.estimated_minutes + bm) 0).head? = some b →
                  b.start = cursor + effEst t.estimated_minutes) := by
              refine ⟨?_, ?_, ?_⟩
              · intro b hb
                rcases List.mem_cons.mp hb with rfl | hb
                · refine ⟨le_refl _, ?_, ?_⟩ <;> simp [mkBreakBlock] <;> omega
                · have h := ihw b hb
                  exact ⟨by omega, h.2.1, h.2.2⟩
              · refine List.chain'_cons'.mpr ⟨?_, ihch⟩
                intro y hy
                have := ihhd y (Option.mem_def.mp hy)
                simp [mkBreakBlock, this]
              · intro b hb
                have : b = mkBreakBlock (cursor + effEst t.estimated_minutes) bm := by
                  simpa using hb.symm
                simp [this, mkBreakBlock]
            exact task_cons_props endT t cursor _ hposT hfit hmid.1 hmid.2.1 hmid.2.2
          · -- break counter reached but the break does not fit: skipped
            simp only [scheduleLoop, if_pos hrun, if_neg hover, if_pos hctr, if_neg hbfit]
            obtain ⟨ihw, ihch, ihhd⟩ := ih hposR (cursor + effEst t.estimated_minutes) 0
            exact task_cons_props endT t cursor _ hposT hfit ihw ihch ihhd
        · -- counter below the threshold: no break attempted
          simp only [scheduleLoop, if_pos hrun, if_neg hover, if_neg hctr]
          obtain ⟨ihw, ihch, ihhd⟩ :=
            ih hposR (cursor + effEst t.estimated_minutes) (msb + effEst t.estimated_minutes)
          exact task_cons_props endT t cursor _ hposT hfit ihw ihch ihhd
    · simp only [scheduleLoop, if_neg hrun]
      exact ⟨by simp, by simp, by simp⟩

theorem chain_start_lower_bound :
    ∀ l : List Block, List.Chain' (fun b c => c.start = b.stop) l →
      (∀ b ∈ l, b.start ≤ b.stop) → ∀ x : Int,
      (∀ c, l.head? = some c → x ≤ c.start) → ∀ c ∈ l, x ≤ c.start := by
  intro l
  induction l with
  | nil => intro _ _ x _ c hc; cases hc
  | cons b l ih =>
    intro hch hb x hx c hc
    rcases List.mem_cons.mp hc with rfl | hc
    · exact hx c rfl
    · rcases List.chain'_cons'.mp hch with ⟨hhead, hchain⟩
      refine ih hchain (fun d hd => hb d (List.mem_cons_of_mem b hd)) x ?_ c hc
      intro d hd
      have h1 : d.start = b.stop := hhead d (Option.mem_def.mpr hd)
      have h2 : x ≤ b.start := hx b rfl
      have h3 : b.start ≤ b.stop := hb b (List.mem_cons_self b l)
      omega

theorem chain_blocks_pairwise :
    ∀ l : List Block, List.Chain' (fun b c => c.start = b.stop) l →
      (∀ b ∈ l, b.start ≤ b.stop) →
      l.Pairwise (fun b c => b.stop ≤ c.start) := by
  intro l
  induction l with
  | nil => intro _ _; exact List.Pairwise.nil
  | cons b l ih =>
    intro hch hb
    rcases List.chain'_cons'.mp hch with ⟨hhead, hchain⟩
    have hbl : ∀ d ∈ l, d.start ≤ d.stop :=
      fun d hd => hb d (List.mem_cons_of_mem b hd)
    refine List.pairwise_cons.mpr ⟨?_, ih hchain hbl⟩
    intro c hc
    refine chain_start_lower_bound l hchain hbl b.stop ?_ c hc
    intro d hd
    exact le_of_eq (hhead d (Option.mem_def.mpr hd)).symm

/-- C9 counterexample: with window 09:00–10:00 (540 < 600) and a request
whose `break_minutes` is 0, one 60-minute task makes the loop emit a break
block with `start = stop = 600`, so not every emitted block satisfies
`start ≤ block.start < block.end ≤ end`. -/
theorem schedule_blocks_window_chain_counterexample :
    (540 : Int) < 600 ∧
    ¬ (∀ b ∈ scheduleLoop 600 60 0
          (sortStable taskLe [⟨some "A", some 1, some (some 60)⟩]) 540 0,
        540 ≤ b.start ∧ b.start < b.stop ∧ b.stop ≤ 600) := by
  decide

/-- C9 (amended): for every schedule request with start < end and a positive
`break_minutes`, over task documents with positive effective estimates (as
schema validation guarantees for stored tasks), all emitted task and break
blocks lie within the window (`start ≤ b.start < b.end ≤ end`), the first
one begins at the start instant, each next one begins exactly where the
previous ended, and the blocks are pairwise non-overlapping. -/
theorem schedule_blocks_window_chain (startT endT bem bm : Int)
    (tasks : List TaskDoc) (hse : startT < endT) (hbm : 0 < bm)
    (hest : ∀ t ∈ tasks, 0 < effEst t.estimated_minutes) :
    (∀ b ∈ scheduleLoop endT bem bm (sortStable taskLe tasks) startT 0,
      startT ≤ b.start ∧ b.start < b.stop ∧ b.stop ≤ endT) ∧
    List.Chain' (fun b c => c.start = b.stop)
      (scheduleLoop endT bem bm (sortStable taskLe tasks) startT 0) ∧
    (∀ b, (scheduleLoop endT bem bm (sortStable taskLe tasks) startT 0).head? =
      some b → b.start = startT) ∧
    (scheduleLoop endT bem bm (sortStable taskLe tasks) startT 0).Pairwise
      (fun b c => b.stop ≤ c.start) := by
  have hest' : ∀ t ∈ sortStable taskLe tasks, 0 < effEst t.estimated_minutes :=
    fun t ht => hest t ((sortStable_perm taskLe tasks).mem_iff.mp ht)
  obtain ⟨hw, hch, hhd⟩ :=
    scheduleLoop_window_chain endT bem bm hbm (sortStable taskLe tasks) hest' startT 0
  exact ⟨hw, hch, hhd,
    chain_blocks_pairwise _ hch (fun b hb => le_of_lt (hw b hb).2.1)⟩

/-- C9 witness: two one-hour tasks in a 09:00–12:00 window with
`break_every_minutes` 60 and `break_minutes` 10 satisfy the window, chain
and non-overlap invariants. -/
theorem schedule_blocks_window_chain_witness :
    (∀ b ∈ scheduleLoop 720 60 10
        (sortStable taskLe [⟨some "A", some 1, some (some 60)⟩,
          ⟨some "B", some 2, some (some 60)⟩]) 540 0,
      540 ≤ b.start ∧ b.start < b.stop ∧ b.stop ≤ 720) ∧
    List.Chain' (fun b c => c.start = b.stop)
      (scheduleLoop 720 60 10
        (sortStable taskLe [⟨some "A", some 1, some (some 60)⟩,
          ⟨some "B", some 2, some (some 60)⟩]) 540 0) ∧
    (∀ b, (scheduleLoop 720 60 10
        (sortStable taskLe [⟨some "A", some 1, some (some 60)⟩,
          ⟨some "B", some 2, some (some 60)⟩]) 540 0).head? = some b →
      b.start = 540) ∧
    (scheduleLoop 720 60 10
        (sortStable taskLe [⟨some "A", some 1, some (some 60)⟩,
          ⟨some "B", some 2, some (some 60)⟩]) 540 0).Pairwise
      (fun b c => b.stop ≤ c.start) :=
  schedule_blocks_window_chain 540 720 60 10
    [⟨some "A", some 1, some (some 60)⟩, ⟨some "B", some 2, some (some 60)⟩]
    (by decide) (by decide) (by decide)

end DLO
